import Mathlib

/-!
# Verification of the cyrial protocol framing and response-assembly core

Shallow embedding of the cyrial C++ headers (`include/cyrial/...`,
`include/serial_device.hpp`).  Machine bytes (`uint8_t`) are modelled as
`Nat` with explicit `% 256` where the C++ arithmetic wraps; C++
`std::string` is Lean `String`; the byte transport is modelled as the
list of strings that successive `read()` calls yield (an empty list means
the next read times out and yields `""`); fallible or value-less control
paths (a C++ function falling off its end without a `return`) are
modelled with `Option`.
-/

namespace Cyrial

/-! ## Hex rendering helpers (std::hex / std::uppercase / setw(2) / setfill) -/

/-- Lowercase hex digit for a value `0 ≤ n < 16`, as `std::hex` renders it. -/
def hexDigitLower (n : Nat) : Char :=
  if n < 10 then Char.ofNat (48 + n) else Char.ofNat (87 + n)

/-- Uppercase hex digit for a value `0 ≤ n < 16`, as
`std::hex << std::uppercase` renders it. -/
def hexDigitUpper (n : Nat) : Char :=
  if n < 10 then Char.ofNat (48 + n) else Char.ofNat (55 + n)

/-- Two-digit zero-filled uppercase hex rendering of a byte, as
`setw(2) << setfill('0') << hex << uppercase` produces for values < 256. -/
def hexByteUpper (n : Nat) : String :=
  String.mk [hexDigitUpper (n / 16), hexDigitUpper (n % 16)]

/-- The byte values of a string, as the C++ code's `(uint8_t)msg[i]` cast
sees them (all characters involved are ASCII). -/
def strBytes (s : String) : List Nat :=
  s.data.map Char.toNat

/-! ## PUBX / NMEA framer (`ubx_device::add_pubx_checksum`, `ubx_device::pubx_rate`) -/

/-- XOR of a list of byte values (each < 256, so the fold stays < 256). -/
def xor8 (bytes : List Nat) : Nat :=
  bytes.foldl Nat.xor 0

/-- `ubx_device::add_pubx_checksum`: XOR the bytes of `msg` from index 1
(skipping the leading `$`) through index `length - 2` (skipping the
trailing `*`), then append the two-digit uppercase hex rendering. -/
def add_pubx_checksum (msg : String) : String :=
  msg ++ hexByteUpper (xor8 ((strBytes msg).drop 1 |>.dropLast))

/-- `ubx_device::pubx_rate`: build
`"$PUBX,40," + nmea_type + "," + i2c + "," + uart + "," + usb + "," + spi + ",0,0*"`
and append the PUBX checksum.  (The C++ method then writes this exact
string to the interface; the encoded sentence is what the claims are
about.) -/
def pubx_rate (nmea_type : String) (i2c_rate uart_rate usb_rate spi_rate : Nat) : String :=
  add_pubx_checksum ("$PUBX,40," ++ nmea_type ++ ","
    ++ toString i2c_rate ++ "," ++ toString uart_rate ++ ","
    ++ toString usb_rate ++ "," ++ toString spi_rate ++ ",0,0*")

/-! ## UBX binary framer (`ubx_device::add_ubx_checksum`, `ubx_mon_ver`, `ubx_mon_hw`) -/

/-- One step of the UBX dual-accumulator checksum:
`check_b += (check_a += byte)` in `uint8_t` arithmetic. -/
def ubx_ck_step (ab : Nat × Nat) (byte : Nat) : Nat × Nat :=
  ((ab.1 + byte) % 256, (ab.2 + ((ab.1 + byte) % 256)) % 256)

/-- The UBX dual-accumulator (Fletcher-like) checksum over a byte list,
both accumulators starting at 0. -/
def ubx_checksum (bytes : List Nat) : Nat × Nat :=
  bytes.foldl ubx_ck_step (0, 0)

/-- `ubx_device::add_ubx_checksum`: compute the dual-accumulator checksum
over the message bytes from index 2 on (skipping the two sync bytes) and
push `check_a` then `check_b` onto the end. -/
def add_ubx_checksum (msg : List Nat) : List Nat :=
  msg ++ [(ubx_checksum (msg.drop 2)).1, (ubx_checksum (msg.drop 2)).2]

/-- Sync byte 1 (`s_mu = 0xb5`). -/
def s_mu : Nat := 0xb5

/-- Sync byte 2 (`s_b = 0x62`). -/
def s_b : Nat := 0x62

/-- MON message class (`c_mon = 0x0a`). -/
def c_mon : Nat := 0x0a

/-- The packet built by `ubx_device::ubx_mon_ver`:
`{ s_mu, s_b, c_mon, 0x04, 0x00, 0x00 }` with the UBX checksum appended. -/
def ubx_mon_ver_packet : List Nat :=
  add_ubx_checksum [s_mu, s_b, c_mon, 0x04, 0x00, 0x00]

/-- The packet built by `ubx_device::ubx_mon_hw`:
`{ s_mu, s_b, c_mon, 0x09, 0x00, 0x00 }` with the UBX checksum appended. -/
def ubx_mon_hw_packet : List Nat :=
  add_ubx_checksum [s_mu, s_b, c_mon, 0x09, 0x00, 0x00]

/-- Spec-side well-formedness of a binary frame (§3 invariant): the frame
is sync bytes, class, id, the little-endian 16-bit rendering of the
actual payload length, the payload, and then the two checksum bytes
(`ck_a` before `ck_b`) computed over exactly class, id, length bytes and
payload. -/
def ubx_frame_wellformed (frame : List Nat) (cls id : Nat) (payload : List Nat) : Prop :=
  frame = [s_mu, s_b, cls, id, payload.length % 256, payload.length / 256]
            ++ payload
            ++ [(ubx_checksum ([cls, id, payload.length % 256, payload.length / 256] ++ payload)).1,
                (ubx_checksum ([cls, id, payload.length % 256, payload.length / 256] ++ payload)).2]

/-! ## UBX hex escaping (`ubx_device::escape_ubx_message`) -/

/-- The character list produced by the `escape_ubx_message` loop: each
byte, in byte order, becomes `\xNN` with two zero-filled lowercase hex
digits. -/
def escapeBytes : List Nat → List Char
  | [] => []
  | b :: bs => '\\' :: 'x' :: hexDigitLower (b / 16) :: hexDigitLower (b % 16) :: escapeBytes bs

/-- `ubx_device::escape_ubx_message`: render every byte of the message as
a backslash-escaped two-digit lowercase hex group, in byte order. -/
def escape_ubx_message (msg : List Nat) : String :=
  String.mk (escapeBytes msg)

/-- Value of a lowercase hex digit character, `none` for anything else. -/
def hexVal (c : Char) : Option Nat :=
  if '0' ≤ c ∧ c ≤ '9' then some (c.toNat - 48)
  else if 'a' ≤ c ∧ c ≤ 'f' then some (c.toNat - 87)
  else none

/-- Parser for a sequence of `\xNN` groups back into bytes (the inverse
rendering described by the spec for `to_wire_text`). -/
def unescapeBytes : List Char → Option (List Nat)
  | [] => some []
  | '\\' :: 'x' :: h :: l :: rest =>
    match hexVal h, hexVal l, unescapeBytes rest with
    | some hv, some lv, some bs => some ((16 * hv + lv) :: bs)
    | _, _, _ => none
  | _ => none

/-! ## Interface (`cyrial/interface.hpp`)

The transport behind an `interface` is modelled by the list of strings
that successive `c_dev[idx].read().rstrip()` calls yield; when the list
is exhausted a read times out and yields `""`. -/

/-- The supported baud rates (`cyrial::baud_rates`, identical in
`interface.hpp` and `serial_device.hpp`). -/
def baud_rates : List Nat :=
  [50, 75, 110, 134, 150, 200, 300, 600, 1200, 1800,
   2400, 4800, 9600, 19200, 38400, 57600, 115200, 230400, 460800, 500000,
   576000, 921600, 1000000, 1152000, 1500000, 2000000, 2500000, 3000000, 3500000, 4000000,
   0]

/-- The `for` loop of `interface::set_baud` / `serial_device::set_baud`:
walk the `baud_rates` array while `proposed != baud_rate`; on a match
apply and store `proposed` (after which the loop condition fails and the
walk stops). Returns the resulting stored baud rate. -/
def set_baud_loop (proposed cur : Nat) : List Nat → Nat
  | [] => cur
  | r :: rs =>
    if proposed = cur then cur
    else if proposed = r then proposed
    else set_baud_loop proposed cur rs

/-- `interface::set_baud` / `serial_device::set_baud`: attempt to apply
`proposed` given current stored rate `cur`; return the stored rate after
the attempt. -/
def set_baud (proposed cur : Nat) : Nat :=
  set_baud_loop proposed cur baud_rates

/-- The do-while loop of `interface::read`: `response += "\n" + temp`
then `temp = read()`, repeated while `temp` is nonempty.  The remaining
transport lines are returned alongside the response. -/
def iface_read_go (response temp : String) : List String → String × List String
  | [] => (response ++ "\n" ++ temp, [])
  | l :: ls =>
    if l.isEmpty then (response ++ "\n" ++ temp, ls)
    else iface_read_go (response ++ "\n" ++ temp) l ls

/-- `interface::read`: first read into `response` (a timed-out read
yields `""`), then the do-while accumulation loop with `temp`
initialised to `""`. -/
def iface_read (lines : List String) : String × List String :=
  match lines with
  | [] => iface_read_go "" "" []
  | l :: ls => iface_read_go l "" ls

/-- State of an `interface`: the commands written so far and the lines
the transport will yield to successive reads. -/
structure IfaceState where
  writes : List String
  lines : List String
  deriving Repr, DecidableEq

/-- `interface::query`: write the command, then `interface::read`. -/
def iface_query (cmd : String) (st : IfaceState) : String × IfaceState :=
  let r := iface_read st.lines
  (r.1, { writes := st.writes ++ [cmd], lines := r.2 })

/-! ## serial_device (`include/serial_device.hpp`) -/

/-- One body execution of the `serial_device::read` do-while loop:
`response += response.empty() ? temp : "\n" + temp`. -/
def serial_step (response temp : String) : String :=
  if response.isEmpty then response ++ temp else response ++ "\n" ++ temp

/-- The do-while loop of `serial_device::read`: run `serial_step`, then
`temp = read()`, repeated while `temp` is nonempty. -/
def serial_read_go (response temp : String) : List String → String
  | [] => serial_step response temp
  | l :: ls =>
    if l.isEmpty then serial_step response temp
    else serial_read_go (serial_step response temp) l ls

/-- `serial_device::read(discard)`: first read (a timed-out read yields
`""`); `response` starts as `""` when `discard` is set, else as that
first line; then the accumulation loop with `temp` initialised `""`. -/
def serial_read (discard : Bool) (lines : List String) : String :=
  match lines with
  | [] => serial_read_go (if discard then "" else "") "" []
  | l :: ls => serial_read_go (if discard then "" else l) "" ls

/-- `serial_device::query(command, discard=true)`: write the command,
then `serial_device::read(discard)`.  Returns the list of writes the
transport observed together with the response. -/
def serial_query (cmd : String) (discard : Bool) (lines : List String) :
    List String × String :=
  ([cmd], serial_read discard lines)

/-- Spec-side reference (§4.2/§3): `Answer` lines newline-joined in
arrival order; the empty list of lines gives the empty response. -/
def joinNL : List String → String
  | [] => ""
  | l :: ls => ls.foldl (fun acc x => acc ++ "\n" ++ x) l

/-- Closed form of what `interface::read` actually returns on a
transport yielding nonempty lines: the first read, a newline (from the
initial empty `temp`), then every further read preceded by a newline;
an immediate timeout yields `"\n"`. -/
def iface_read_spec : List String → String
  | [] => "\n"
  | l1 :: ls => ls.foldl (fun acc x => acc ++ "\n" ++ x) (l1 ++ "\n")

/-! ## CSAC device (`cyrial/devices/csac.hpp`) -/

/-- `csac_device::steer_freq_abs`: out-of-range values (outside the
closed range [-20000000, 20000000]) return `""` without touching the
transport; in-range values query `"!FD" + std::to_string(value)`. -/
def steer_freq_abs (value : Int) (st : IfaceState) : String × IfaceState :=
  if value < -20000000 ∨ value > 20000000 then ("", st)
  else iface_query ("!FD" ++ toString value) st

/-- `csac_device::steer_freq_rel`: textually identical body to
`steer_freq_abs` in the source. -/
def steer_freq_rel (value : Int) (st : IfaceState) : String × IfaceState :=
  if value < -20000000 ∨ value > 20000000 then ("", st)
  else iface_query ("!FD" ++ toString value) st

/-! ## NMEA device (`cyrial/devices/nmea.hpp`) -/

/-- `input[0]` of a C++ `std::string`: the first character, or the null
character for the empty string. -/
def firstChar (s : String) : Char :=
  s.data.headD (Char.ofNat 0)

/-- The while loop of `nmea_device::check_NMEA`: while the last read
`result` begins with `'$'`, push `input` (the source pushes `input`
here, not `result`) and read again.  When the loop exits, control falls
off the end of the enclosing `if` branch without a `return` statement,
which the embedding renders as `none`.  Returns (returned value,
messages buffer, remaining transport lines). -/
def check_NMEA_loop (input : String) (msgs : List String) (result : String)
    (tr : List String) : Option String × List String × List String :=
  if firstChar result = '$' then
    match tr with
    | [] => (none, msgs ++ [input], [])
    | l :: ls => check_NMEA_loop input (msgs ++ [input]) l ls
  else (none, msgs, tr)

/-- `nmea_device::check_NMEA`: if `input` begins with `'$'`, push it onto
`messages`, read, and loop while reads begin with `'$'`; afterwards the
branch has no `return` (modelled `none`).  Otherwise return `input`
unchanged. -/
def check_NMEA (input : String) (msgs : List String) (tr : List String) :
    Option String × List String × List String :=
  if firstChar input = '$' then
    match tr with
    | [] => (none, msgs ++ [input], [])
    | l :: ls => check_NMEA_loop input (msgs ++ [input]) l ls
  else (some input, msgs, tr)

/-- `nmea_device::get_NMEA`: concatenate all buffered messages in order
into one string, clear the buffer, return the string.  Result is
(returned string, new buffer). -/
def get_NMEA (msgs : List String) : String × List String :=
  (msgs.foldl (fun r m => r ++ m) "", [])

/-! ## Manager (`cyrial/manager.hpp`) -/

/-- `cyrial::manager`, reduced to the state its accessors read: the
vector of shared interface handles (element type abstract). -/
structure manager (α : Type) where
  port : List α

/-- `manager::num_dev`: `port.size()`. -/
def num_dev {α : Type} (m : manager α) : Nat :=
  m.port.length

/-- `manager::dev`: `port[number]`, an unchecked `std::vector` access; in
this total embedding an out-of-bounds index yields `none`. -/
def dev {α : Type} (m : manager α) (number : Nat) : Option α :=
  m.port.get? number

/-! ## Helper lemmas -/

theorem set_baud_loop_mem (p cur : Nat) :
    ∀ rs : List Nat, p ∈ rs → set_baud_loop p cur rs = p := by
  intro rs
  induction rs with
  | nil => intro h; cases h
  | cons r rs ih =>
    intro h
    unfold set_baud_loop
    by_cases hc : p = cur
    · rw [if_pos hc]; exact hc.symm
    · by_cases hr : p = r
      · rw [if_neg hc, if_pos hr]
      · have : p ∈ rs := by
          cases h with
          | head => exact absurd rfl hr
          | tail _ h => exact h
        rw [if_neg hc, if_neg hr]
        exact ih this

theorem set_baud_loop_not_mem (p cur : Nat) :
    ∀ rs : List Nat, p ∉ rs → set_baud_loop p cur rs = cur := by
  intro rs
  induction rs with
  | nil => intro _; rfl
  | cons r rs ih =>
    intro h
    unfold set_baud_loop
    have hr : ¬ p = r := fun he => h (he ▸ List.mem_cons_self r rs)
    have ht : p ∉ rs := fun hm => h (List.mem_cons_of_mem r hm)
    by_cases hc : p = cur
    · rw [if_pos hc]
    · rw [if_neg hc, if_neg hr]
      exact ih ht

theorem hexVal_hexDigitLower :
    ∀ n : Fin 16, hexVal (hexDigitLower n.val) = some n.val := by decide

theorem append_nl_ne_empty (r l : String) : r ++ "\n" ++ l ≠ "" := by
  intro h
  have hl := congrArg String.length h
  have h1 : ("\n" : String).length = 1 := rfl
  simp [String.length_append, h1] at hl

theorem serial_read_go_eq_foldl :
    ∀ (ls : List String) (response temp : String), (∀ l ∈ ls, l ≠ "") →
      serial_read_go response temp ls = List.foldl serial_step response (temp :: ls) := by
  intro ls
  induction ls with
  | nil => intro response temp _; rfl
  | cons l ls ih =>
    intro response temp h
    have hl : l ≠ "" := h l (List.mem_cons_self l ls)
    have hle : l.isEmpty = false := by
      cases he : l.isEmpty
      · rfl
      · exact absurd ((String.isEmpty_iff l).mp he) hl
    show (if l.isEmpty then serial_step response temp
          else serial_read_go (serial_step response temp) l ls) = _
    rw [hle]
    simp only [Bool.false_eq_true, if_false]
    exact ih (serial_step response temp) l (fun x hx => h x (List.mem_cons_of_mem l hx))

theorem foldl_serial_step_of_ne :
    ∀ (ls : List String) (response : String), response ≠ "" →
      List.foldl serial_step response ls
        = List.foldl (fun acc x => acc ++ "\n" ++ x) response ls := by
  intro ls
  induction ls with
  | nil => intro response _; rfl
  | cons l ls ih =>
    intro response h
    have he : response.isEmpty = false := by
      cases hs : response.isEmpty
      · rfl
      · exact absurd ((String.isEmpty_iff response).mp hs) h
    have hstep : serial_step response l = response ++ "\n" ++ l := by
      unfold serial_step
      rw [he]
      simp
    rw [List.foldl_cons, List.foldl_cons, hstep]
    exact ih (response ++ "\n" ++ l) (append_nl_ne_empty response l)

theorem iface_read_go_eq :
    ∀ (ls : List String) (response temp : String), (∀ l ∈ ls, l ≠ "") →
      (iface_read_go response temp ls).1
        = List.foldl (fun acc x => acc ++ "\n" ++ x) (response ++ "\n" ++ temp) ls := by
  intro ls
  induction ls with
  | nil => intro response temp _; rfl
  | cons l ls ih =>
    intro response temp h
    have hl : l ≠ "" := h l (List.mem_cons_self l ls)
    have hle : l.isEmpty = false := by
      cases he : l.isEmpty
      · rfl
      · exact absurd ((String.isEmpty_iff l).mp he) hl
    show (if l.isEmpty then (response ++ "\n" ++ temp, ls)
          else iface_read_go (response ++ "\n" ++ temp) l ls).1 = _
    rw [hle]
    simp only [Bool.false_eq_true, if_false]
    exact ih (response ++ "\n" ++ temp) l (fun x hx => h x (List.mem_cons_of_mem l hx))

/-! ## Claim theorems -/

/-- C1: the claim says that during a drain every line beginning with `$`
is appended to the sentence buffer in arrival order and excluded from
the returned response, so that for reads yielding `$GPGGA,A` (the
input), then `$GPGGA,B`, then `OK`, the buffer ends as
`[$GPGGA,A, $GPGGA,B]` and the response is `OK`.  The code instead
pushes `input` again inside its read loop (never the newly read
sentence) and its `$` branch ends without a `return` statement, so it
produces buffer `[$GPGGA,A, $GPGGA,A]` and no return value (`none` in
this total embedding) rather than `OK`. -/
theorem check_NMEA_failing_eval :
    check_NMEA "$GPGGA,A" [] ["$GPGGA,B", "OK"]
      = (none, ["$GPGGA,A", "$GPGGA,A"], [])
    ∧ (["$GPGGA,A", "$GPGGA,A"] : List String) ≠ ["$GPGGA,A", "$GPGGA,B"] :=
  ⟨rfl, by decide⟩

/-- C2 counterexample: the encoded PUBX rate sentence for
`pubx_rate("RMC",1,1,1,1)` is not `"$PUBX,40,RMC,1,1,1,1,0,0*"` followed
by the XOR-8 checksum of the span `"40,RMC,1,1,1,1,0,0"` (that checksum
is `74`, while the code appends `47`). -/
theorem pubx_rate_claimed_span_refuted :
    pubx_rate "RMC" 1 1 1 1
      ≠ "$PUBX,40,RMC,1,1,1,1,0,0*" ++ hexByteUpper (xor8 (strBytes "40,RMC,1,1,1,1,0,0")) := by
  decide

/-- C2 (amended): `pubx_rate("RMC",1,1,1,1)` produces exactly
`"$PUBX,40,RMC,1,1,1,1,0,0*"` followed by the two uppercase hex digits
of the XOR-8 checksum of the span `"PUBX,40,RMC,1,1,1,1,0,0"` — the
whole span from just after `$` to just before `*`, as §4.1 describes —
which is `47`. -/
theorem pubx_rate_encoding :
    pubx_rate "RMC" 1 1 1 1
      = "$PUBX,40,RMC,1,1,1,1,0,0*" ++ hexByteUpper (xor8 (strBytes "PUBX,40,RMC,1,1,1,1,0,0"))
    ∧ pubx_rate "RMC" 1 1 1 1 = "$PUBX,40,RMC,1,1,1,1,0,0*47" :=
  ⟨by decide, by decide⟩

/-- C3: the encoded MON-VER request frame equals
`B5 62 0A 04 00 00 0E 34`, where `(0x0E, 0x34)` is exactly the result of
the dual-accumulator recurrence `a = (a + byte) % 256`,
`b = (b + a) % 256` over the bytes `0A 04 00 00` (sync bytes excluded);
and both binary frames the code builds (MON-VER and MON-HW) carry a
little-endian length field equal to the actual payload length with the
two checksum bytes appended last, `ck_a` then `ck_b`. -/
theorem ubx_mon_ver_frame_correct :
    ubx_mon_ver_packet = [0xb5, 0x62, 0x0a, 0x04, 0x00, 0x00, 0x0e, 0x34]
    ∧ ubx_checksum [0x0a, 0x04, 0x00, 0x00] = (0x0e, 0x34)
    ∧ ubx_frame_wellformed ubx_mon_ver_packet c_mon 0x04 []
    ∧ ubx_frame_wellformed ubx_mon_hw_packet c_mon 0x09 [] :=
  ⟨by decide, by decide, rfl, rfl⟩

/-- C4 counterexample: calling the frequency-steer method with
`20000001` does not fail with any error — the source has no error
channel at all — it silently returns the ordinary (empty-string)
response and leaves the interface state untouched. -/
theorem steer_freq_abs_out_of_range_silent :
    steer_freq_abs 20000001 ⟨[], ["Steered"]⟩ = ("", ⟨[], ["Steered"]⟩) := rfl

/-- C4 (amended): calling the frequency-steer method with `20000001` is
silently ignored — the transport observes zero writes and the returned
value is the empty string, with no error reported — while calling it
with `20000000` succeeds and the transport observes exactly one write,
`"!FD20000000"` (the documented closed range being
[-20000000, 20000000]). -/
theorem steer_freq_abs_range_behavior :
    (steer_freq_abs 20000001 ⟨[], ["Steered"]⟩).2.writes = []
    ∧ (steer_freq_abs 20000001 ⟨[], ["Steered"]⟩).1 = ""
    ∧ (steer_freq_abs 20000000 ⟨[], ["Steered"]⟩).2.writes = ["!FD20000000"] :=
  ⟨rfl, rfl, rfl⟩

/-- C5: for every in-range argument `v`, the absolute and the relative
frequency-steer methods are extensionally equal — on any interface state
they produce the identical result and identical transport interaction —
and both write exactly the wire string `"!FD"` followed by the decimal
rendering of `v`. -/
theorem steer_freq_abs_rel_equal (v : Int) (st : IfaceState)
    (h1 : -20000000 ≤ v) (h2 : v ≤ 20000000) :
    steer_freq_abs v st = steer_freq_rel v st
    ∧ (steer_freq_abs v st).2.writes = st.writes ++ ["!FD" ++ toString v] := by
  constructor
  · rfl
  · have hc : ¬ (v < -20000000 ∨ v > 20000000) := by omega
    simp [steer_freq_abs, iface_query, hc]

/-- C5 witness: the two steer methods agree at `v = 0` on the empty
state, writing exactly `"!FD0"`. -/
theorem steer_freq_abs_rel_equal_witness :
    steer_freq_abs 0 ⟨[], []⟩ = steer_freq_rel 0 ⟨[], []⟩
    ∧ (steer_freq_abs 0 ⟨[], []⟩).2.writes = [] ++ ["!FD" ++ toString (0 : Int)] :=
  steer_freq_abs_rel_equal 0 ⟨[], []⟩ (by decide) (by decide)

/-- C6 counterexample: `interface::query` does not drop the first line
read: on a transport echoing the command and then printing `data`, it
returns `"CMD\n\ndata"` (echo kept, plus a stray newline from the
loop's initial empty `temp`), not `"data"`. -/
theorem iface_query_keeps_echo :
    (iface_query "CMD" ⟨[], ["CMD", "data"]⟩).1 = "CMD\n\ndata"
    ∧ (iface_query "CMD" ⟨[], ["CMD", "data"]⟩).1 ≠ "data" :=
  ⟨rfl, by decide⟩

/-- C6 (amended): `serial_device::query` writes the encoded command
exactly once and reads until a read yields no further data, dropping the
first line (the command echo) before accumulation; its response is the
remaining lines newline-joined in arrival order, and a timeout before
any data yields the empty response.  `interface::query` also writes the
command exactly once but does not drop the echo: its response is the
first read followed by a newline, each further read preceded by a
newline, and an immediate timeout yields `"\n"`. -/
theorem query_drain_spec (cmd : String) (lines : List String)
    (h : ∀ l ∈ lines, l ≠ "") :
    serial_query cmd true lines = ([cmd], joinNL lines.tail)
    ∧ (iface_query cmd ⟨[], lines⟩).2.writes = [cmd]
    ∧ (iface_query cmd ⟨[], lines⟩).1 = iface_read_spec lines := by
  refine ⟨?_, by simp [iface_query], ?_⟩
  · unfold serial_query
    cases lines with
    | nil => rfl
    | cons l1 ls =>
      have hls : ∀ l ∈ ls, l ≠ "" := fun x hx => h x (List.mem_cons_of_mem l1 hx)
      show ([cmd], serial_read_go "" "" ls) = ([cmd], joinNL ls)
      rw [serial_read_go_eq_foldl ls "" "" hls]
      cases ls with
      | nil => rfl
      | cons x xs =>
        have hx : x ≠ "" := hls x (List.mem_cons_self x xs)
        have hstep : List.foldl serial_step "" ("" :: x :: xs)
            = List.foldl serial_step x xs := by
          rw [List.foldl_cons, List.foldl_cons]
          have e1 : serial_step (serial_step "" "") x = "" ++ x := rfl
          rw [e1, String.empty_append]
        rw [hstep, foldl_serial_step_of_ne xs x hx]
        rfl
  · unfold iface_query iface_read
    cases lines with
    | nil => rfl
    | cons l1 ls =>
      have hls : ∀ l ∈ ls, l ≠ "" := fun x hx => h x (List.mem_cons_of_mem l1 hx)
      show (iface_read_go l1 "" ls).1 = iface_read_spec (l1 :: ls)
      rw [iface_read_go_eq ls l1 "" hls]
      simp [iface_read_spec, String.append_empty]

/-- C6 witness: with command `"GPS?"` and transport lines
`["GPS?", "OK"]` the serial query returns `"OK"` (echo dropped) while
the interface query keeps the echo. -/
theorem query_drain_spec_witness :
    serial_query "GPS?" true ["GPS?", "OK"] = (["GPS?"], joinNL (["GPS?", "OK"] : List String).tail)
    ∧ (iface_query "GPS?" ⟨[], ["GPS?", "OK"]⟩).2.writes = ["GPS?"]
    ∧ (iface_query "GPS?" ⟨[], ["GPS?", "OK"]⟩).1 = iface_read_spec ["GPS?", "OK"] :=
  query_drain_spec "GPS?" ["GPS?", "OK"] (by decide)

/-- C7: draining the sentence buffer twice in succession with no
intervening push yields the buffered sentences (concatenated in arrival
order) once and then nothing: the first `get_NMEA` clears the buffer,
so the second call returns the empty string on the empty buffer. -/
theorem get_NMEA_drain_twice (msgs : List String) :
    (get_NMEA msgs).1 = String.join msgs
    ∧ (get_NMEA msgs).2 = []
    ∧ get_NMEA (get_NMEA msgs).2 = ("", []) :=
  ⟨rfl, rfl, rfl⟩

/-- C8 counterexample: `set_baud` with the unsupported rate `1234` is
not rejected with any error — it completes normally, returning the
unchanged stored rate, indistinguishably from a redundant in-set call
that proposes the current rate. -/
theorem set_baud_no_error_on_invalid :
    set_baud 1234 9600 = 9600 ∧ set_baud 1234 9600 = set_baud 9600 9600 :=
  ⟨by decide, by decide⟩

/-- C8 (amended): `set_baud` applies and stores a proposed rate exactly
when it belongs to the fixed enumerated set `baud_rates`; a rate outside
the set is silently ignored — the stored rate is left unchanged and
returned, with no error raised — and a proposed rate is never coerced to
a different value. -/
theorem set_baud_spec (p cur : Nat) :
    (p ∈ baud_rates → set_baud p cur = p)
    ∧ (p ∉ baud_rates → set_baud p cur = cur) :=
  ⟨fun h => set_baud_loop_mem p cur baud_rates h,
   fun h => set_baud_loop_not_mem p cur baud_rates h⟩

/-- C8 witness: from current rate 9600, the in-set rate 115200 is
applied and stored, while the out-of-set rate 1234 leaves 9600 stored. -/
theorem set_baud_spec_witness :
    set_baud 115200 9600 = 115200 ∧ set_baud 1234 9600 = 9600 :=
  ⟨(set_baud_spec 115200 9600).1 (by decide),
   (set_baud_spec 1234 9600).2 (by decide)⟩

/-- C9: for every byte vector, `escape_ubx_message` renders each byte in
byte order as a backslash-escaped two-digit lowercase hex group `\xNN`,
and the rendering is lossless: parsing the `\xNN` groups back yields
exactly the original byte vector. -/
theorem escape_roundtrip (msg : List Nat) (h : ∀ b ∈ msg, b < 256) :
    unescapeBytes (escape_ubx_message msg).data = some msg := by
  show unescapeBytes (escapeBytes msg) = some msg
  induction msg with
  | nil => rfl
  | cons b bs ih =>
    have hb : b < 256 := h b (List.mem_cons_self b bs)
    have hdiv : b / 16 < 16 := by omega
    have hmod : b % 16 < 16 := by omega
    have h1 : hexVal (hexDigitLower (b / 16)) = some (b / 16) :=
      hexVal_hexDigitLower ⟨b / 16, hdiv⟩
    have h2 : hexVal (hexDigitLower (b % 16)) = some (b % 16) :=
      hexVal_hexDigitLower ⟨b % 16, hmod⟩
    have ihv := ih (fun x hx => h x (List.mem_cons_of_mem b hx))
    show unescapeBytes ('\\' :: 'x' :: hexDigitLower (b / 16)
          :: hexDigitLower (b % 16) :: escapeBytes bs) = some (b :: bs)
    simp only [unescapeBytes, h1, h2, ihv]
    have hd : 16 * (b / 16) + b % 16 = b := by omega
    rw [hd]

/-- C9 witness: the MON-VER frame prefix bytes round-trip through the
escape rendering. -/
theorem escape_roundtrip_witness :
    unescapeBytes (escape_ubx_message [181, 98, 10, 4]).data = some [181, 98, 10, 4] :=
  escape_roundtrip [181, 98, 10, 4] (by decide)

/-- C10: for every index `n < num_dev m`, `manager::dev` returns the
interface handle stored at position `n` of the manager's port vector
(the embedding is a pure read, so the manager is unchanged by
construction); for every `n ≥ num_dev m` the unchecked vector access is
out of bounds, rendered `none` in this total embedding — the error
branch is reachable, with no precondition guarding it. -/
theorem manager_dev_spec {α : Type} (m : manager α) (n : Nat) :
    (∀ h : n < num_dev m, dev m n = some (m.port.get ⟨n, h⟩))
    ∧ (num_dev m ≤ n → dev m n = none) := by
  constructor
  · intro h
    exact List.get?_eq_get h
  · intro h
    exact List.get?_eq_none.mpr h

/-- C10 witness: on a two-port manager, index 1 yields the second
handle and index 5 yields `none`. -/
theorem manager_dev_spec_witness :
    dev (⟨[10, 20]⟩ : manager Nat) 1 = some 20
    ∧ dev (⟨[10, 20]⟩ : manager Nat) 5 = none :=
  ⟨(manager_dev_spec (⟨[10, 20]⟩ : manager Nat) 1).1 (by decide),
   (manager_dev_spec (⟨[10, 20]⟩ : manager Nat) 5).2 (by decide)⟩

end Cyrial
